import Mathlib

/-!
Shallow embedding of the clip-cruncher video-compressor front end.

The embedding covers:
* the storage layer (`src/src/lib/storage.ts`): history records, app settings,
  CSV export;
* the job-orchestration state of the real-encoder compressor page
  (`src/unnamed/part_010`, the `VideoCompressor` component backed by
  `realVideoProcessor`): job creation, staggered starts, progress callbacks,
  completion, failure, cancel and retry;
* the display computations of `ProgressTracker.tsx` (compression ratio);
* the lazy, coalescing `RealVideoProcessor.initialize` logic of
  `src/unnamed/part_000`, modelled as an interleaving transition system.

JavaScript numbers are modelled as `Rat` where fractional values occur and as
`Nat` for byte counts and timestamps; `JSON.parse` (a host-runtime primitive)
is modelled as an explicit parse parameter.  React `useState` state is
modelled as an explicit store threaded through the handlers: each handler is
embedded as a pure function from the current state to the next state, which
is the reducer semantics the functional `setState` updates implement.
Where a handler runs inside a stale `useCallback` closure (the scheduled
starts), the state snapshot that closure captured is passed explicitly,
separate from the current list its functional updates act on.
-/

/-- Job status union of `ProgressTracker.tsx` line 25:
`waiting | processing | completed | error | cancelled`. -/
inductive JobStatus where
  | waiting
  | processing
  | completed
  | error
  | cancelled
deriving DecidableEq, Repr

/-- A browser `File`: we keep the fields the compressor reads
(`name`, `size`, `type`). -/
structure VFile where
  name : String
  size : Nat
  type : String
deriving DecidableEq, Repr

/-- A produced `Blob`; only its byte length is observed by the code. -/
structure Blob where
  size : Nat
deriving DecidableEq, Repr

/-- The per-job `settings` object created in `part_010` lines 163-168:
`\x7b preset: selectedPreset, crf, scale, outputFormat \x7d`. -/
structure JobSettings where
  preset : String
  crf : Nat
  scale : Nat
  outputFormat : String
deriving DecidableEq, Repr

/-- `CompressionJob` of `ProgressTracker.tsx` lines 22-38. -/
structure CompressionJob where
  id : String
  file : VFile
  status : JobStatus
  progress : Rat
  startTime : Option Nat
  endTime : Option Nat
  originalSize : Nat
  compressedSize : Option Nat
  outputBlob : Option Blob
  error : Option String
  settings : JobSettings
deriving DecidableEq, Repr

/-- History record status union of `storage.ts` line 11. -/
inductive HistoryStatus where
  | completed
  | cancelled
  | error
deriving DecidableEq, Repr

/-- The nested `settings` field of `CompressionHistoryItem`
(`storage.ts` lines 13-17). -/
structure HistorySettings where
  preset : String
  crf : Nat
  scale : Nat
deriving DecidableEq, Repr

/-- `CompressionHistoryItem` of `storage.ts` lines 1-18. -/
structure CompressionHistoryItem where
  id : String
  fileName : String
  originalSize : Nat
  compressedSize : Nat
  compressionRatio : Rat
  preset : String
  date : String
  time : String
  duration : String
  status : HistoryStatus
  fileType : String
  settings : HistorySettings
deriving DecidableEq, Repr

/-- Theme union of `storage.ts` line 28. -/
inductive Theme where
  | light
  | dark
  | system
deriving DecidableEq, Repr

/-- The nested `customSettings` field of `AppSettings`
(`storage.ts` lines 22-27). -/
structure AppCustomSettings where
  crf : Nat
  preset : String
  scale : Nat
  preserveQuality : Bool
deriving DecidableEq, Repr

/-- `AppSettings` of `storage.ts` lines 20-30. -/
structure AppSettings where
  defaultPreset : String
  customSettings : AppCustomSettings
  theme : Theme
  autoSaveHistory : Bool
deriving DecidableEq, Repr

/-- The built-in default settings object duplicated at `storage.ts`
lines 105-115 and 118-128. -/
def defaultAppSettings : AppSettings :=
  { defaultPreset := "balanced"
    customSettings := { crf := 25, preset := "medium", scale := 100, preserveQuality := false }
    theme := Theme.system
    autoSaveHistory := true }

/-- `getCompressionHistory` (`storage.ts` lines 38-46).
`localStorage.getItem` yields `none` when the key is absent; the JS
truthiness test `stored ?` also rejects the empty string; a `JSON.parse`
exception (modelled as the parse function returning `none`) is caught and
turned into the empty list. -/
def getCompressionHistory
    (parseHistory : String → Option (List CompressionHistoryItem))
    (stored : Option String) : List CompressionHistoryItem :=
  match stored with
  | none => []
  | some s =>
      if s = "" then []
      else
        match parseHistory s with
        | none => []
        | some h => h

/-- `getAppSettings` (`storage.ts` lines 102-130): absent key, empty string
or a parse failure all yield `defaultAppSettings`. -/
def getAppSettings
    (parseSettings : String → Option AppSettings)
    (stored : Option String) : AppSettings :=
  match stored with
  | none => defaultAppSettings
  | some s =>
      if s = "" then defaultAppSettings
      else
        match parseSettings s with
        | none => defaultAppSettings
        | some v => v

/-- The argument record of `addToHistory`
(`Omit<CompressionHistoryItem, id | date | time>`, `storage.ts` line 56). -/
structure HistoryInput where
  fileName : String
  originalSize : Nat
  compressedSize : Nat
  compressionRatio : Rat
  preset : String
  duration : String
  status : HistoryStatus
  fileType : String
  settings : HistorySettings
deriving DecidableEq, Repr

/-- The `newItem` built by `addToHistory` (`storage.ts` lines 59-64): the
input spread plus freshly generated `id`, `date` and `time`. -/
def mkHistoryItem (input : HistoryInput) (id date time : String) :
    CompressionHistoryItem :=
  { id := id
    fileName := input.fileName
    originalSize := input.originalSize
    compressedSize := input.compressedSize
    compressionRatio := input.compressionRatio
    preset := input.preset
    date := date
    time := time
    duration := input.duration
    status := input.status
    fileType := input.fileType
    settings := input.settings }

/-- `addToHistory` (`storage.ts` lines 56-68): `history.unshift(newItem)`
places the new item at the *front* of the stored list. -/
def addToHistory (history : List CompressionHistoryItem) (input : HistoryInput)
    (id date time : String) : List CompressionHistoryItem :=
  mkHistoryItem input id date time :: history

/-- Zero padding used to render a fixed number of fraction digits. -/
def padZeros (f : Nat) (s : String) : String :=
  String.mk (List.replicate (f - s.length) '0') ++ s

/-- `Number.prototype.toFixed` on a non-negative value: round to the nearest
multiple of `10 ^ (-f)`, ties upward, then print with exactly `f` fraction
digits. -/
def toFixedPos (f : Nat) (q : Rat) : String :=
  let n : Nat := (Int.floor (q * (10 : Rat) ^ f + 1 / 2)).toNat
  if f = 0 then toString n
  else toString (n / 10 ^ f) ++ "." ++ padZeros f (toString (n % 10 ^ f))

/-- `Number.prototype.toFixed`: negative values are rendered as a minus sign
followed by the rendering of the absolute value. -/
def jsToFixed (f : Nat) (q : Rat) : String :=
  if q < 0 then "-" ++ toFixedPos f (-q) else toFixedPos f q

/-- `Math.round`: round half toward positive infinity. -/
def jsRound (q : Rat) : Int := Int.floor (q + 1 / 2)

/-- Rendering of the history status union member as the string stored in the
exported CSV. -/
def historyStatusString : HistoryStatus → String
  | HistoryStatus.completed => "completed"
  | HistoryStatus.cancelled => "cancelled"
  | HistoryStatus.error => "error"

/-- The fixed CSV header row of `exportHistory` (`storage.ts` line 77). -/
def exportHeader : List String :=
  ["File Name", "Original Size (MB)", "Compressed Size (MB)",
   "Compression Ratio (%)", "Preset", "Date", "Time", "Status"]

/-- One data row of the exported CSV (`storage.ts` lines 78-87): sizes are
converted from bytes to MB with `toFixed(2)`, the ratio with `toFixed(1)`. -/
def exportRowOf (item : CompressionHistoryItem) : List String :=
  [item.fileName,
   jsToFixed 2 ((item.originalSize : Rat) / (1024 * 1024)),
   jsToFixed 2 ((item.compressedSize : Rat) / (1024 * 1024)),
   jsToFixed 1 item.compressionRatio,
   item.preset,
   item.date,
   item.time,
   historyStatusString item.status]

/-- The row list of `exportHistory` (`storage.ts` lines 76-88): the header
followed by one row per stored record - the code maps over the *whole*
history with no status filter. -/
def exportHistoryRows (history : List CompressionHistoryItem) :
    List (List String) :=
  [exportHeader] ++ history.map exportRowOf

/-- The `csvContent` string of `exportHistory` (`storage.ts` line 88):
rows joined by commas, lines joined by newlines. -/
def exportHistoryCsv (history : List CompressionHistoryItem) : String :=
  String.intercalate "\n" ((exportHistoryRows history).map (String.intercalate ","))

/-- The compressor page `customSettings` state (`part_010` lines 17-23). -/
structure CustomSettings where
  crf : Nat
  preset : String
  scale : Nat
  preserveQuality : Bool
  outputFormat : String
deriving DecidableEq, Repr

/-- Initial `customSettings` of the compressor page (`part_010` lines 17-23). -/
def initialCustomSettings : CustomSettings :=
  { crf := 25, preset := "medium", scale := 100, preserveQuality := false
    outputFormat := "mp4" }

/-- One entry of `COMPRESSION_PRESETS` (`CompressionSettings.tsx` lines 23-90);
only the fields the orchestrator reads (`id`, `crf`, `preset`, `scale`) are
kept - the icon, label and colour fields are render-only. -/
structure PresetDef where
  id : String
  crf : Nat
  preset : String
  scale : Nat
deriving DecidableEq, Repr

/-- `COMPRESSION_PRESETS` (`CompressionSettings.tsx` lines 23-90). -/
def COMPRESSION_PRESETS : List PresetDef :=
  [{ id := "aggressive", crf := 32, preset := "fast", scale := 75 },
   { id := "fast", crf := 28, preset := "faster", scale := 100 },
   { id := "balanced", crf := 25, preset := "medium", scale := 100 },
   { id := "quality", crf := 20, preset := "slow", scale := 100 },
   { id := "lossless", crf := 0, preset := "veryslow", scale := 100 },
   { id := "custom", crf := 23, preset := "medium", scale := 100 }]

/-- JavaScript `a || b` on numbers: `0` is falsy. -/
def jsOrNat (n d : Nat) : Nat := if n = 0 then d else n

/-- JavaScript `a || b` on strings: the empty string is falsy. -/
def jsOrStr (s d : String) : String := if s = "" then d else s

/-- The `settings` object computed by `handleStartCompression`
(`part_010` lines 149-155): the custom settings verbatim for the `custom`
preset, otherwise the preset entry with `|| 25`, `|| medium`, `|| 100`
fallbacks. -/
structure EffectiveSettings where
  crf : Nat
  preset : String
  scale : Nat
  preserveQuality : Bool
deriving DecidableEq, Repr

/-- `part_010` lines 149-155. -/
def effectiveSettings (selectedPreset : String) (cs : CustomSettings) :
    EffectiveSettings :=
  if selectedPreset = "custom" then
    { crf := cs.crf, preset := cs.preset, scale := cs.scale
      preserveQuality := cs.preserveQuality }
  else
    match COMPRESSION_PRESETS.find? (fun p => p.id == selectedPreset) with
    | some p =>
        { crf := jsOrNat p.crf 25, preset := jsOrStr p.preset "medium"
          scale := jsOrNat p.scale 100, preserveQuality := cs.preserveQuality }
    | none =>
        { crf := 25, preset := "medium", scale := 100
          preserveQuality := cs.preserveQuality }

/-- One new job of `handleStartCompression` (`part_010` lines 157-169):
id `job-<now>-<index>`, status `waiting`, progress `0`, `originalSize`
equal to the byte length of the source file. -/
def mkNewJob (now : Nat) (selectedPreset : String) (es : EffectiveSettings)
    (outputFormat : String) (index : Nat) (file : VFile) : CompressionJob :=
  { id := "job-" ++ toString now ++ "-" ++ toString index
    file := file
    status := JobStatus.waiting
    progress := 0
    startTime := none
    endTime := none
    originalSize := file.size
    compressedSize := none
    outputBlob := none
    error := none
    settings :=
      { preset := selectedPreset, crf := es.crf, scale := es.scale
        outputFormat := outputFormat } }

/-- Toast identities of the compressor page; the embedding records which
notification fired rather than its display strings. -/
inductive ToastKind where
  | filesAdded
  | noFilesSelected
  | compressionStarted
  | compressionComplete
  | compressionFailed
  | jobCancelled
  | retrying
deriving DecidableEq, Repr

/-- A fired toast; `destructive` mirrors the `variant: destructive` flag. -/
structure Toast where
  kind : ToastKind
  destructive : Bool
deriving DecidableEq, Repr

/-- The compressor page state (`part_010` lines 15-25). -/
structure CompressorState where
  selectedFiles : List VFile
  selectedPreset : String
  customSettings : CustomSettings
  compressionJobs : List CompressionJob
  isProcessing : Bool
deriving DecidableEq, Repr

/-- Result of `handleStartCompression`: the next state, the toast fired, and
the `(jobId, delay)` pairs scheduled by `simulateCompression`
(`part_010` lines 131-137: one `setTimeout` per job at `index * 1000`). -/
structure StartResult where
  state : CompressorState
  toast : Toast
  scheduled : List (String × Nat)
deriving DecidableEq, Repr

/-- `simulateCompression` (`part_010` lines 131-137): schedule
`startJobProcessing job.id` at `index * 1000` milliseconds. -/
def simulateCompression (jobs : List CompressionJob) : List (String × Nat) :=
  jobs.enum.map (fun p => (p.2.id, p.1 * 1000))

/-- `handleStartCompression` (`part_010` lines 139-180).  With no selected
files it fires only the destructive `No Files Selected` toast; otherwise it
appends one `waiting` job per selected file, clears the selection, marks the
page processing, and schedules the staggered starts. -/
def handleStartCompression (st : CompressorState) (now : Nat) : StartResult :=
  if st.selectedFiles.length = 0 then
    { state := st
      toast := { kind := ToastKind.noFilesSelected, destructive := true }
      scheduled := [] }
  else
    let es := effectiveSettings st.selectedPreset st.customSettings
    let newJobs := st.selectedFiles.enum.map
      (fun p => mkNewJob now st.selectedPreset es st.customSettings.outputFormat p.1 p.2)
    { state :=
        { st with
          compressionJobs := st.compressionJobs ++ newJobs
          selectedFiles := []
          isProcessing := true }
      toast := { kind := ToastKind.compressionStarted, destructive := false }
      scheduled := simulateCompression newJobs }

/-- `handleCancelJob` (`part_010` lines 182-190): mark the job `cancelled`;
no other field changes and no other job changes. -/
def handleCancelJob (jobs : List CompressionJob) (jobId : String) :
    List CompressionJob :=
  jobs.map (fun job =>
    if job.id == jobId then { job with status := JobStatus.cancelled } else job)

/-- The synchronous head of `startJobProcessing` (`part_010` lines 35-43).
The lookup at line 36 reads `compressionJobs` from the `useCallback`
closure the invocation runs in - a `snapshot` of the state at the render
that created the closure - while the `setCompressionJobs` update at lines
39-43 is functional and acts on the current `jobs` list.  If the snapshot
holds no job with this id (or that job has no file), line 37 returns and no
transition happens; otherwise the matching job in the *current* list is set
to `processing` with `startTime = Date.now()`, with no check of its current
status. -/
def startJobProcessingBegin (snapshot jobs : List CompressionJob)
    (jobId : String) (now : Nat) : List CompressionJob :=
  match snapshot.find? (fun j => j.id == jobId) with
  | none => jobs
  | some _ =>
      jobs.map (fun job =>
        if job.id == jobId then
          { job with status := JobStatus.processing, startTime := some now }
        else job)

/-- The progress callback passed to `compressVideo`
(`part_010` lines 64-70): update `progress` only on the job whose id matches
*and* whose current status is `processing`. -/
def onJobProgress (jobs : List CompressionJob) (jobId : String) (p : Rat) :
    List CompressionJob :=
  jobs.map (fun job =>
    if job.id == jobId && job.status == JobStatus.processing then
      { job with progress := p }
    else job)

/-- `part_010` line 76: `((originalSize - compressedSize) / originalSize) * 100`. -/
def compressionRatioPercent (originalSize compressedSize : Nat) : Rat :=
  ((originalSize : Rat) - (compressedSize : Rat)) / (originalSize : Rat) * 100

/-- The `completedJob` object (`part_010` lines 79-86): the snapshot taken at
the start of `startJobProcessing` spread with completion fields.  No status
check is made before it replaces the job in state. -/
def completedJobOf (currentJob : CompressionJob) (compressedBlob : Blob)
    (endTime : Nat) : CompressionJob :=
  { currentJob with
    status := JobStatus.completed
    progress := 100
    endTime := some endTime
    compressedSize := some compressedBlob.size
    outputBlob := some compressedBlob }

/-- The history input built on completion (`part_010` lines 101-111). -/
def completionHistoryInput (currentJob : CompressionJob)
    (compressedBlob : Blob) (duration : String) : HistoryInput :=
  { fileName := currentJob.file.name
    originalSize := currentJob.file.size
    compressedSize := compressedBlob.size
    compressionRatio := compressionRatioPercent currentJob.file.size compressedBlob.size
    preset := currentJob.settings.preset
    duration := duration
    status := HistoryStatus.completed
    fileType := currentJob.file.type
    settings :=
      { preset := currentJob.settings.preset, crf := currentJob.settings.crf
        scale := currentJob.settings.scale } }

/-- The completion continuation of `startJobProcessing`
(`part_010` lines 73-111), run when `compressVideo` resolves: replace the
job with `completedJobOf` and append a history record - unconditionally,
with no check of the job status at arrival time. -/
def startJobProcessingComplete (jobs : List CompressionJob)
    (history : List CompressionHistoryItem) (jobId : String)
    (currentJob : CompressionJob) (compressedBlob : Blob) (endTime : Nat)
    (duration : String) (newId date time : String) :
    List CompressionJob × List CompressionHistoryItem :=
  (jobs.map (fun j =>
      if j.id == jobId then completedJobOf currentJob compressedBlob endTime else j),
   addToHistory history (completionHistoryInput currentJob compressedBlob duration)
     newId date time)

/-- The catch branch of `startJobProcessing` (`part_010` lines 125-127):
mark the job `error` with the failure message. -/
def startJobProcessingFail (jobs : List CompressionJob) (jobId : String)
    (message : String) : List CompressionJob :=
  jobs.map (fun j =>
    if j.id == jobId then
      { j with status := JobStatus.error, error := some message }
    else j)

/-- Result of `handleRetry`: the next job list plus the `(jobId, 1000)`
start it schedules. -/
structure RetryResult where
  jobs : List CompressionJob
  scheduled : List (String × Nat)
deriving DecidableEq, Repr

/-- `handleRetry` (`part_010` lines 239-250): reset the matching job to
`waiting` with `progress 0` and the error cleared, then schedule
`startJobProcessing jobId` after 1000 milliseconds. -/
def handleRetry (jobs : List CompressionJob) (jobId : String) : RetryResult :=
  { jobs := jobs.map (fun job =>
      if job.id == jobId then
        { job with status := JobStatus.waiting, progress := 0, error := none }
      else job)
    scheduled := [(jobId, 1000)] }

/-- The retry affordance of `ProgressTracker.tsx` line 213: the Retry button
is rendered only when `isError`, so retry is reachable only from `error`. -/
def retryOffered (job : CompressionJob) : Bool :=
  job.status == JobStatus.error

/-- The per-job ratio of `ProgressTracker.tsx` lines 151-153:
`job.compressedSize ? ((originalSize - compressedSize) / originalSize) * 100 : 0`
- a falsy (absent or zero) compressed size yields `0`, and nothing clamps
the result. -/
def jobCompressionRatioDisplay (job : CompressionJob) : Rat :=
  match job.compressedSize with
  | none => 0
  | some cs =>
      if cs = 0 then 0
      else ((job.originalSize : Rat) - (cs : Rat)) / (job.originalSize : Rat) * 100

/-- The `% saved` figure of `ProgressTracker.tsx` lines 194 and 285:
`Math.round(originalSize > 0 ? ((originalSize - compressedSize) / originalSize) * 100 : 0)`,
evaluated under a truthiness guard on `compressedSize`. -/
def percentSavedDisplay (job : CompressionJob) : Int :=
  jsRound
    (if 0 < job.originalSize then
      ((job.originalSize : Rat) - ((job.compressedSize.getD 0 : Nat) : Rat)) /
        (job.originalSize : Rat) * 100
     else 0)

/-- The two flags of `RealVideoProcessor` (`part_000` lines 46-48):
`isLoaded` and `isLoading`. -/
structure ProcState where
  isLoaded : Bool
  isLoading : Bool
deriving DecidableEq, Repr

/-- Program counter of one `initialize()` caller (`part_000` lines 50-82):
`idle` before the call; `waiting` inside the 100 ms polling loop;
`loading` while performing the guarded load; `done ret` after returning. -/
inductive CallerPc where
  | idle
  | waiting
  | loading
  | done (ret : Bool)
deriving DecidableEq, Repr

/-- A configuration of the initialization system: the shared processor flags
plus one program counter per caller. -/
structure InitConfig (ι : Type) where
  ps : ProcState
  pcs : ι → CallerPc

/-- All callers idle, nothing loaded, nothing loading. -/
def initConfig (ι : Type) : InitConfig ι :=
  { ps := { isLoaded := false, isLoading := false }, pcs := fun _ => CallerPc.idle }

/-- Interleaving semantics of `RealVideoProcessor.initialize`
(`part_000` lines 50-82).  The prefix of the method up to the assignment
`this.isLoading = true` contains no `await`, so it is a single atomic step
in the browser's run-to-completion model (the three `enter` constructors).
`poll` is one wake-up of the 100 ms waiting loop, observing `isLoading`
false and returning the current `isLoaded`.  `finish` is the completion of
the in-flight load with outcome `r` (`true`: lines 72-74; `false`: the
catch at lines 75-78), together with the `finally` that clears `isLoading`;
`allowed` constrains which load outcomes the environment may produce. -/
inductive InitStep (ι : Type) [DecidableEq ι] (allowed : Bool → Prop) :
    InitConfig ι → InitConfig ι → Prop where
  | enterLoaded (c : InitConfig ι) (i : ι) :
      c.pcs i = CallerPc.idle → c.ps.isLoaded = true →
      InitStep ι allowed c
        { ps := c.ps, pcs := Function.update c.pcs i (CallerPc.done true) }
  | enterWait (c : InitConfig ι) (i : ι) :
      c.pcs i = CallerPc.idle → c.ps.isLoaded = false → c.ps.isLoading = true →
      InitStep ι allowed c
        { ps := c.ps, pcs := Function.update c.pcs i CallerPc.waiting }
  | enterLoad (c : InitConfig ι) (i : ι) :
      c.pcs i = CallerPc.idle → c.ps.isLoaded = false → c.ps.isLoading = false →
      InitStep ι allowed c
        { ps := { isLoaded := false, isLoading := true }
          pcs := Function.update c.pcs i CallerPc.loading }
  | poll (c : InitConfig ι) (i : ι) :
      c.pcs i = CallerPc.waiting → c.ps.isLoading = false →
      InitStep ι allowed c
        { ps := c.ps
          pcs := Function.update c.pcs i (CallerPc.done c.ps.isLoaded) }
  | finish (c : InitConfig ι) (i : ι) (r : Bool) :
      c.pcs i = CallerPc.loading → allowed r →
      InitStep ι allowed c
        { ps := { isLoaded := r, isLoading := false }
          pcs := Function.update c.pcs i (CallerPc.done r) }

/-- Reachability from the all-idle configuration. -/
def InitReachable (ι : Type) [DecidableEq ι] (allowed : Bool → Prop)
    (c : InitConfig ι) : Prop :=
  Relation.ReflTransGen (InitStep ι allowed) (initConfig ι) c

/-! ### Concrete sample data used to evaluate the embedding -/

/-- A sample 1000-byte video file. -/
def fileA : VFile := { name := "a.mp4", size := 1000, type := "video/mp4" }

/-- A sample 2000-byte video file. -/
def fileB : VFile := { name := "b.mp4", size := 2000, type := "video/mp4" }

/-- The compressor page with two files selected under the `balanced`
preset and the initial custom settings. -/
def demoState : CompressorState :=
  { selectedFiles := [fileA, fileB]
    selectedPreset := "balanced"
    customSettings := initialCustomSettings
    compressionJobs := []
    isProcessing := false }

/-- The two jobs created by pressing Start at `Date.now() = 5`. -/
def demoJobs : List CompressionJob :=
  (handleStartCompression demoState 5).state.compressionJobs

/-- `demoJobs` after the user cancels the second (still `waiting`) job. -/
def demoJobsCancelled : List CompressionJob :=
  handleCancelJob demoJobs "job-5-1"

/-- The stagger-timer invocation of `startJobProcessing "job-5-1"` at
`Date.now() = 99`: the timer was installed by `simulateCompression` inside
the click-handler render, so the `useCallback` closure it calls captured
`compressionJobs` as of *before* the enqueue (`demoState.compressionJobs`),
while its functional update acts on the current list
(`demoJobsCancelled`). -/
def demoStaleStart : List CompressionJob :=
  startJobProcessingBegin demoState.compressionJobs demoJobsCancelled "job-5-1" 99

/-- A job in `processing` state, as startJobProcessing snapshots it. -/
def procJob : CompressionJob :=
  { id := "job-9-0"
    file := fileA
    status := JobStatus.processing
    progress := 40
    startTime := some 10
    endTime := none
    originalSize := 1000
    compressedSize := none
    outputBlob := none
    error := none
    settings := { preset := "balanced", crf := 25, scale := 100, outputFormat := "mp4" } }

/-- The 500-byte blob the encoder eventually produces for `procJob`. -/
def demoBlob : Blob := { size := 500 }

/-- `[procJob]` after the user cancels it mid-processing. -/
def procJobCancelled : List CompressionJob :=
  handleCancelJob [procJob] "job-9-0"

/-- State and history after the encoder resolves for the cancelled
`procJob`: the completion continuation runs against the cancelled job. -/
def procJobCompletionResult :
    List CompressionJob × List CompressionHistoryItem :=
  startJobProcessingComplete procJobCancelled [] "job-9-0" procJob demoBlob 20
    "Unknown" "h1" "2024-01-01" "10:00:00"

/-- A completed job whose output came out *larger* than its input
(a real possibility on encoder fallback paths): 100 bytes in,
150 bytes out. -/
def badRatioJob : CompressionJob :=
  { id := "job-1-0"
    file := { name := "tiny.mp4", size := 100, type := "video/mp4" }
    status := JobStatus.completed
    progress := 100
    startTime := some 1
    endTime := some 2
    originalSize := 100
    compressedSize := some 150
    outputBlob := some { size := 150 }
    error := none
    settings := { preset := "balanced", crf := 25, scale := 100, outputFormat := "mp4" } }

/-- A stored history record whose status is `error` (1 MiB original,
0.5 MiB compressed). -/
def recErr : CompressionHistoryItem :=
  { id := "h-err"
    fileName := "fail.mp4"
    originalSize := 1048576
    compressedSize := 524288
    compressionRatio := 50
    preset := "balanced"
    date := "2024-01-01"
    time := "10:00:00"
    duration := "0:10"
    status := HistoryStatus.error
    fileType := "video/mp4"
    settings := { preset := "balanced", crf := 25, scale := 100 } }

/-- A stored completed-status history record. -/
def recA : CompressionHistoryItem :=
  { id := "h-a"
    fileName := "a.mp4"
    originalSize := 1000
    compressedSize := 500
    compressionRatio := 50
    preset := "balanced"
    date := "2024-01-01"
    time := "09:00:00"
    duration := "0:05"
    status := HistoryStatus.completed
    fileType := "video/mp4"
    settings := { preset := "balanced", crf := 25, scale := 100 } }

/-- A fresh record about to be stored after `recA`. -/
def inputB : HistoryInput :=
  { fileName := "b.mp4"
    originalSize := 2000
    compressedSize := 800
    compressionRatio := 60
    preset := "fast"
    duration := "0:07"
    status := HistoryStatus.completed
    fileType := "video/mp4"
    settings := { preset := "fast", crf := 28, scale := 100 } }

/-- An errored job offered a Retry button. -/
def errJob : CompressionJob :=
  { id := "job-err"
    file := fileA
    status := JobStatus.error
    progress := 40
    startTime := some 10
    endTime := none
    originalSize := 1000
    compressedSize := none
    outputBlob := none
    error := some "FFmpeg failed"
    settings := { preset := "balanced", crf := 25, scale := 100, outputFormat := "mp4" } }

/-- One-caller configuration after the caller atomically enters the load
section. -/
def demoInitC1 : InitConfig (Fin 1) :=
  { ps := { isLoaded := false, isLoading := true }
    pcs := Function.update (initConfig (Fin 1)).pcs 0 CallerPc.loading }

/-- `demoInitC1` after the load finishes successfully. -/
def demoInitC2 : InitConfig (Fin 1) :=
  { ps := { isLoaded := true, isLoading := false }
    pcs := Function.update demoInitC1.pcs 0 (CallerPc.done true) }

/-- Mixed-outcome run, step 1: caller 0 atomically enters the load section
(first load in flight). -/
def mixedC1 : InitConfig (Fin 3) :=
  { ps := { isLoaded := false, isLoading := true }
    pcs := Function.update (initConfig (Fin 3)).pcs 0 CallerPc.loading }

/-- Step 2: caller 1 calls while the first load is in flight and enters the
100 ms polling loop, awaiting that load. -/
def mixedC2 : InitConfig (Fin 3) :=
  { ps := mixedC1.ps
    pcs := Function.update mixedC1.pcs 1 CallerPc.waiting }

/-- Step 3: the first load fails - caller 0 returns `false`, the flags are
cleared, caller 1 has not polled yet. -/
def mixedC3 : InitConfig (Fin 3) :=
  { ps := { isLoaded := false, isLoading := false }
    pcs := Function.update mixedC2.pcs 0 (CallerPc.done false) }

/-- Step 4: before caller 1's next poll, a fresh caller 2 arrives, sees
both flags false, and starts a second load. -/
def mixedC4 : InitConfig (Fin 3) :=
  { ps := { isLoaded := false, isLoading := true }
    pcs := Function.update mixedC3.pcs 2 CallerPc.loading }

/-- Step 5: the second load succeeds - caller 2 returns `true` and
`isLoaded` is set. -/
def mixedC5 : InitConfig (Fin 3) :=
  { ps := { isLoaded := true, isLoading := false }
    pcs := Function.update mixedC4.pcs 2 (CallerPc.done true) }

/-- Step 6: caller 1 finally polls, sees `isLoading` false, and returns the
*second* load's outcome `true` - although the load it awaited failed. -/
def mixedC6 : InitConfig (Fin 3) :=
  { ps := mixedC5.ps
    pcs := Function.update mixedC5.pcs 1 (CallerPc.done true) }

/-! ### Helper lemmas -/

/-- Evaluation helper for `toFixedPos` once the rounded numerator is known. -/
theorem toFixedPos_eval (f : Nat) (q : Rat) (n : Nat)
    (h : Int.floor (q * (10 : Rat) ^ f + 1 / 2) = (n : Int)) (hf : f ≠ 0) :
    toFixedPos f q =
      toString (n / 10 ^ f) ++ "." ++ padZeros f (toString (n % 10 ^ f)) := by
  simp only [toFixedPos, h, Int.toNat_natCast, if_neg hf]

/-! ### C1: the compression ratio is not clamped before display -/

/-- C1. The claim says the ratio `(originalSize - outputSize) / originalSize`
is clamped to `[0, 1]` before display.  The code clamps nowhere: at
`originalSize = 100`, `outputSize = 150` the orchestrator stores and the
tracker displays `-50` percent, i.e. a ratio of `-0.5`, outside `[0, 1]`. -/
theorem compressionRatio_not_clamped :
    compressionRatioPercent 100 150 = -50 ∧
    jobCompressionRatioDisplay badRatioJob = -50 ∧
    percentSavedDisplay badRatioJob = -50 ∧
    jobCompressionRatioDisplay badRatioJob < 0 := by
  refine ⟨?_, ?_, ?_, ?_⟩
  · norm_num [compressionRatioPercent]
  · norm_num [jobCompressionRatioDisplay, badRatioJob]
  · norm_num [percentSavedDisplay, jsRound, badRatioJob]
  · norm_num [jobCompressionRatioDisplay, badRatioJob]

/-! ### C2: a cancelled waiting job is never started -/

/-- C2. Cancelling the still-`waiting` second job immediately sets
`cancelled` with `startTime` still unset, and the stagger-scheduled start
pending for it never moves it to `processing`: the timer invokes the
`useCallback` closure whose captured `compressionJobs` predates the
enqueue, so the lookup at `part_010` line 36 misses `job-5-1` and the
function returns at line 37 with no transition.  In general, a scheduled
start whose closure snapshot holds no job with the given id leaves the
current job list untouched. -/
theorem cancelled_waiting_job_never_started :
    (∀ (snapshot jobs : List CompressionJob) (jobId : String) (now : Nat),
      snapshot.find? (fun j => j.id == jobId) = none →
      startJobProcessingBegin snapshot jobs jobId now = jobs) ∧
    demoJobs[1]?.map (fun j => j.status) = some JobStatus.waiting ∧
    (handleStartCompression demoState 5).scheduled =
      [("job-5-0", 0), ("job-5-1", 1000)] ∧
    demoJobsCancelled[1]?.map (fun j => j.status) = some JobStatus.cancelled ∧
    demoJobsCancelled[1]?.map (fun j => j.startTime) = some none ∧
    demoStaleStart = demoJobsCancelled ∧
    demoStaleStart[1]?.map (fun j => j.status) = some JobStatus.cancelled ∧
    demoStaleStart[1]?.map (fun j => j.startTime) = some none := by
  refine ⟨?_, by decide, by decide, by decide, by decide, rfl, by decide, by decide⟩
  intro snapshot jobs jobId now h
  unfold startJobProcessingBegin
  rw [h]

/-- Witness for C2: the stagger-timer start of the cancelled `job-5-1`
runs against the pre-enqueue snapshot and changes nothing. -/
theorem cancelled_waiting_job_never_started_witness :
    startJobProcessingBegin demoState.compressionJobs demoJobsCancelled
      "job-5-1" 99 = demoJobsCancelled := by
  exact cancelled_waiting_job_never_started.1 demoState.compressionJobs
    demoJobsCancelled "job-5-1" 99 rfl

/-! ### C3: a job cancelled while processing is still completed and recorded -/

/-- C3. The claim says a job cancelled while `processing` discards the
encoder's completion result and appends no history record.  The completion
continuation of `startJobProcessing` performs no status check: the cancelled
job is overwritten with the completed snapshot and `addToHistory` appends a
record for it. -/
theorem cancelled_processing_job_completed_and_recorded :
    procJobCancelled[0]?.map (fun j => j.status) = some JobStatus.cancelled ∧
    procJobCompletionResult.1[0]?.map (fun j => j.status) = some JobStatus.completed ∧
    procJobCompletionResult.1[0]?.map (fun j => j.outputBlob) = some (some demoBlob) ∧
    procJobCompletionResult.2.length = 1 ∧
    procJobCompletionResult.2[0]?.map (fun h => h.fileName) = some "a.mp4" ∧
    procJobCompletionResult.2[0]?.map (fun h => h.status) = some HistoryStatus.completed := by
  refine ⟨by decide, by decide, by decide, by decide, by decide, by decide⟩

/-! ### C4: the CSV export does not filter by completed status -/

/-- C4 counterexample. The claim predicts one data row per *completed*
record, so a history holding only an error-status record should export just
the header.  The code maps over the whole history with no status filter:
the error record gets a data row, whose Status cell is `error`. -/
theorem exportHistory_includes_row_for_error_status :
    (exportHistoryRows [recErr]).length = 2 ∧
    exportHistoryRows [recErr] ≠ [exportHeader] ∧
    (exportHistoryRows [recErr])[1]? = some (exportRowOf recErr) ∧
    recErr.status = HistoryStatus.error ∧
    (exportRowOf recErr)[7]? = some "error" := by
  refine ⟨by simp [exportHistoryRows], ?_, by simp [exportHistoryRows], by decide, by decide⟩
  intro h
  have hlen := congrArg List.length h
  simp [exportHistoryRows] at hlen

/-- C4 as amended. `exportHistory` emits the fixed header followed by
exactly one row per stored record - *regardless of status* - and the two
size cells are the byte counts divided by `1024 * 1024` rendered with
`toFixed(2)`. -/
theorem exportHistory_rows_spec (history : List CompressionHistoryItem) :
    (exportHistoryRows history).length = history.length + 1 ∧
    (exportHistoryRows history)[0]? = some exportHeader ∧
    (∀ i (hi : i < history.length),
      (exportHistoryRows history)[i + 1]? = some (exportRowOf history[i])) ∧
    (∀ item : CompressionHistoryItem,
      (exportRowOf item).length = 8 ∧
      (exportRowOf item)[0]? = some item.fileName ∧
      (exportRowOf item)[1]? =
        some (jsToFixed 2 ((item.originalSize : Rat) / (1024 * 1024))) ∧
      (exportRowOf item)[2]? =
        some (jsToFixed 2 ((item.compressedSize : Rat) / (1024 * 1024))) ∧
      (exportRowOf item)[3]? = some (jsToFixed 1 item.compressionRatio) ∧
      (exportRowOf item)[7]? = some (historyStatusString item.status)) := by
  refine ⟨by simp [exportHistoryRows], by simp [exportHistoryRows], ?_, ?_⟩
  · intro i hi
    have h1 : ([exportHeader] : List (List String)).length ≤ i + 1 := by simp
    rw [exportHistoryRows, List.getElem?_append_right h1]
    simp [List.getElem?_map, List.getElem?_eq_getElem hi]
  · intro item
    exact ⟨rfl, rfl, rfl, rfl, rfl, rfl⟩

/-- Witness for C4: the error record of the counterexample occupies row 1,
and the MB conversions indeed render with two decimals. -/
theorem exportHistory_rows_spec_witness :
    (exportHistoryRows [recErr])[1]? = some (exportRowOf recErr) ∧
    jsToFixed 2 ((1048576 : Rat) / (1024 * 1024)) = "1.00" ∧
    jsToFixed 2 ((524288 : Rat) / (1024 * 1024)) = "0.50" := by
  refine ⟨?_, ?_, ?_⟩
  · have h := (exportHistory_rows_spec [recErr]).2.2.1 0 (by simp)
    simpa using h
  · rw [jsToFixed, if_neg (by norm_num),
      toFixedPos_eval 2 _ 100 (by norm_num) (by norm_num)]
    decide
  · rw [jsToFixed, if_neg (by norm_num),
      toFixedPos_eval 2 _ 50 (by norm_num) (by norm_num)]
    decide

/-! ### C5: history records are prepended, not appended -/

/-- C5 counterexample. The claim predicts the persisted list is the prior
list with the new record at the *end*; `addToHistory` uses `unshift`, so the
new record lands at the *front*. -/
theorem addToHistory_prepends_not_appends :
    addToHistory [recA] inputB "h-b" "2024-01-02" "11:00:00" =
      [mkHistoryItem inputB "h-b" "2024-01-02" "11:00:00", recA] ∧
    addToHistory [recA] inputB "h-b" "2024-01-02" "11:00:00" ≠
      [recA] ++ [mkHistoryItem inputB "h-b" "2024-01-02" "11:00:00"] := by
  refine ⟨rfl, ?_⟩
  intro h
  have h0 := congrArg (fun l => l[0]?.map (fun r => r.fileName)) h
  simp [addToHistory, mkHistoryItem, recA, inputB] at h0

/-- C5 as amended. `addToHistory` persists the prior list with the new
record placed at the *beginning*; every previously stored record is
unchanged and keeps its prior relative order, shifted one slot down. -/
theorem addToHistory_spec (history : List CompressionHistoryItem)
    (input : HistoryInput) (id date time : String) :
    (addToHistory history input id date time).length = history.length + 1 ∧
    (addToHistory history input id date time)[0]? =
      some (mkHistoryItem input id date time) ∧
    (∀ k (hk : k < history.length),
      (addToHistory history input id date time)[k + 1]? = some history[k]) := by
  refine ⟨by simp [addToHistory], by simp [addToHistory], ?_⟩
  intro k hk
  simp [addToHistory, List.getElem?_eq_getElem hk]

/-- Witness for C5: after storing `inputB` over `[recA]`, the prior record
`recA` sits unchanged at index 1. -/
theorem addToHistory_spec_witness :
    (addToHistory [recA] inputB "h-b" "2024-01-02" "11:00:00")[1]? = some recA := by
  have h := (addToHistory_spec [recA] inputB "h-b" "2024-01-02" "11:00:00").2.2 0 (by simp)
  simpa using h

/-! ### C6: enqueueing files -/

/-- C6. With no files selected, `handleStartCompression` changes nothing
and fires only the destructive `No Files Selected` toast.  With `N` files
selected it appends exactly `N` new jobs - each `waiting`, at progress `0`,
with `originalSize` equal to its source file's byte length - leaving every
previously existing job unchanged. -/
theorem handleStartCompression_spec (st : CompressorState) (now : Nat) :
    (st.selectedFiles.length = 0 →
      (handleStartCompression st now).state = st ∧
      (handleStartCompression st now).toast =
        { kind := ToastKind.noFilesSelected, destructive := true } ∧
      (handleStartCompression st now).scheduled = []) ∧
    (st.selectedFiles.length ≠ 0 →
      (handleStartCompression st now).state.compressionJobs.length =
        st.compressionJobs.length + st.selectedFiles.length ∧
      (∀ k (hk : k < st.compressionJobs.length),
        (handleStartCompression st now).state.compressionJobs[k]? =
          st.compressionJobs[k]?) ∧
      (∀ i (hi : i < st.selectedFiles.length),
        ∃ j : CompressionJob,
          (handleStartCompression st now).state.compressionJobs[st.compressionJobs.length + i]? =
            some j ∧
          j.status = JobStatus.waiting ∧ j.progress = 0 ∧
          j.originalSize = st.selectedFiles[i].size ∧
          j.file = st.selectedFiles[i]) ∧
      (handleStartCompression st now).toast =
        { kind := ToastKind.compressionStarted, destructive := false }) := by
  constructor
  · intro h0
    refine ⟨?_, ?_, ?_⟩ <;> simp [handleStartCompression, h0]
  · intro hne
    have hexp : (handleStartCompression st now).state.compressionJobs =
        st.compressionJobs ++ st.selectedFiles.enum.map
          (fun p => mkNewJob now st.selectedPreset
            (effectiveSettings st.selectedPreset st.customSettings)
            st.customSettings.outputFormat p.1 p.2) := by
      simp [handleStartCompression, hne]
    refine ⟨?_, ?_, ?_, ?_⟩
    · rw [hexp]
      simp [List.length_append, List.length_map, List.enum_length]
    · intro k hk
      rw [hexp, List.getElem?_append_left hk]
    · intro i hi
      have h2 : st.compressionJobs.length ≤ st.compressionJobs.length + i :=
        Nat.le_add_right _ _
      have h3 : st.compressionJobs.length + i - st.compressionJobs.length = i := by
        omega
      have h4 : (st.selectedFiles.enum)[i]? = some (i, st.selectedFiles[i]) := by
        simp [List.enum, List.getElem?_enumFrom, List.getElem?_eq_getElem hi]
      rw [hexp, List.getElem?_append_right h2, h3, List.getElem?_map, h4]
      exact ⟨_, rfl, rfl, rfl, rfl, rfl⟩
    · simp [handleStartCompression, hne]

/-- Witness for C6: pressing Start on `demoState` (two files) yields two
jobs; the second is `waiting` at progress `0` with `originalSize 2000`,
the byte length of `fileB`. -/
theorem handleStartCompression_spec_witness :
    (handleStartCompression demoState 5).state.compressionJobs.length = 2 ∧
    (handleStartCompression demoState 5).state.compressionJobs[1]?.map
      (fun j => j.status) = some JobStatus.waiting ∧
    (handleStartCompression demoState 5).state.compressionJobs[1]?.map
      (fun j => j.progress) = some 0 ∧
    (handleStartCompression demoState 5).state.compressionJobs[1]?.map
      (fun j => j.originalSize) = some 2000 := by
  have h := (handleStartCompression_spec demoState 5).2 (by decide)
  obtain ⟨j, h1, h2, h3, h4, h5⟩ := h.2.2.1 1 (by decide)
  have h1x : (handleStartCompression demoState 5).state.compressionJobs[1]? = some j := h1
  have hlen : (handleStartCompression demoState 5).state.compressionJobs.length = 2 := by
    have := h.1
    simpa [demoState] using this
  refine ⟨hlen, ?_, ?_, ?_⟩ <;> rw [h1x]
  · simp [h2]
  · simp [h3]
  · have hsz : j.originalSize = 2000 := by
      rw [h4]; decide
    simp [hsz]

/-! ### C7: retry resets the errored job and schedules its start -/

/-- C7. Under the validity precondition the UI enforces (the Retry button is
only offered while the job status is `error`), `handleRetry` resets the
job's progress to `0`, clears its error, moves it to `waiting`, schedules a
start for exactly that job id after 1000 ms, and leaves every other job
untouched. -/
theorem handleRetry_spec (jobs : List CompressionJob) (jobId : String) (i : Nat)
    (hi : i < jobs.length) (hid : jobs[i].id = jobId)
    (hoff : retryOffered jobs[i] = true)
    (huniq : ∀ k (hk : k < jobs.length), k ≠ i → jobs[k].id ≠ jobId) :
    (handleRetry jobs jobId).jobs.length = jobs.length ∧
    (handleRetry jobs jobId).jobs[i]? =
      some { jobs[i] with status := JobStatus.waiting, progress := 0, error := none } ∧
    (∀ k (hk : k < jobs.length), k ≠ i →
      (handleRetry jobs jobId).jobs[k]? = some jobs[k]) ∧
    (handleRetry jobs jobId).scheduled = [(jobId, 1000)] := by
  refine ⟨by simp [handleRetry], ?_, ?_, rfl⟩
  · simp [handleRetry, List.getElem?_eq_getElem hi, hid]
  · intro k hk hkne
    have hne := huniq k hk hkne
    simp [handleRetry, List.getElem?_eq_getElem hk, hne]

/-- Witness for C7: retrying the errored `errJob` yields a `waiting` job at
progress `0` with the error cleared, and schedules its start after 1000 ms. -/
theorem handleRetry_spec_witness :
    (handleRetry [errJob] "job-err").jobs[0]?.map (fun j => j.status) =
      some JobStatus.waiting ∧
    (handleRetry [errJob] "job-err").jobs[0]?.map (fun j => j.error) = some none ∧
    (handleRetry [errJob] "job-err").jobs[0]?.map (fun j => j.progress) = some 0 ∧
    (handleRetry [errJob] "job-err").scheduled = [("job-err", 1000)] := by
  have h := handleRetry_spec [errJob] "job-err" 0 (by decide) (by decide) (by decide)
    (fun k hk hkne => absurd (Nat.lt_one_iff.mp hk) hkne)
  refine ⟨?_, ?_, ?_, h.2.2.2⟩ <;> rw [h.2.1] <;> rfl

/-! ### C8: progress callbacks are gated on `processing` -/

/-- C8. The progress callback updates `progress` to `p` only on a job whose
id matches and whose status is currently `processing`; if no job with that
id is `processing` the whole collection is returned unchanged, and any job
failing either test keeps its exact prior value. -/
theorem onJobProgress_spec (jobs : List CompressionJob) (jobId : String) (p : Rat) :
    ((∀ job ∈ jobs, job.id = jobId → job.status ≠ JobStatus.processing) →
      onJobProgress jobs jobId p = jobs) ∧
    (∀ i (hi : i < jobs.length),
      jobs[i].id = jobId → jobs[i].status = JobStatus.processing →
      (onJobProgress jobs jobId p)[i]? = some { jobs[i] with progress := p }) ∧
    (∀ i (hi : i < jobs.length),
      jobs[i].id ≠ jobId ∨ jobs[i].status ≠ JobStatus.processing →
      (onJobProgress jobs jobId p)[i]? = some jobs[i]) := by
  refine ⟨?_, ?_, ?_⟩
  · intro hno
    unfold onJobProgress
    have hptw : ∀ job ∈ jobs,
        (if (job.id == jobId && job.status == JobStatus.processing) = true
          then { job with progress := p } else job) = job := by
      intro job hmem
      rw [if_neg]
      simp only [Bool.and_eq_true, beq_iff_eq, not_and]
      intro h1 h2
      exact hno job hmem h1 h2
    rw [List.map_congr_left hptw]
    simp
  · intro i hi h1 h2
    simp [onJobProgress, List.getElem?_eq_getElem hi, h1, h2]
  · intro i hi hcase
    have hcond :
        ¬ ((jobs[i].id == jobId && jobs[i].status == JobStatus.processing) = true) := by
      simp only [Bool.and_eq_true, beq_iff_eq]
      rintro ⟨h1, h2⟩
      rcases hcase with h | h
      · exact h h1
      · exact h h2
    simp [onJobProgress, List.getElem?_eq_getElem hi, hcond]
    intro h1 h2
    rcases hcase with h | h
    · exact absurd h1 h
    · exact absurd h2 h

/-- Witness for C8: a progress tick for the processing `procJob` lands; a
tick addressed to an id that no processing job carries leaves the
collection identical. -/
theorem onJobProgress_spec_witness :
    (onJobProgress [procJob] "job-9-0" 55)[0]?.map (fun j => j.progress) =
      some 55 ∧
    onJobProgress [procJob] "nope" 55 = [procJob] := by
  constructor
  · have h := (onJobProgress_spec [procJob] "job-9-0" 55).2.1 0 (by decide)
      (by decide) (by decide)
    rw [h]; rfl
  · refine (onJobProgress_spec [procJob] "nope" 55).1 ?_
    intro job hmem hid
    rw [List.mem_singleton] at hmem
    subst hmem
    exact absurd hid (by decide)

/-! ### C10: storage getters never throw and fall back to defaults -/

/-- C10. `getCompressionHistory` returns the empty list when the history
key is absent or its content fails to parse; `getAppSettings` likewise
returns the built-in defaults (`balanced`, crf 25, `medium`, scale 100,
`preserveQuality false`, theme `system`, `autoSaveHistory true`); both are
total functions, so no exception escapes. -/
theorem storage_getters_default_spec
    (parseH : String → Option (List CompressionHistoryItem))
    (parseS : String → Option AppSettings) (s t : String) :
    getCompressionHistory parseH none = [] ∧
    (parseH s = none → getCompressionHistory parseH (some s) = []) ∧
    getAppSettings parseS none = defaultAppSettings ∧
    (parseS t = none → getAppSettings parseS (some t) = defaultAppSettings) ∧
    defaultAppSettings =
      { defaultPreset := "balanced"
        customSettings :=
          { crf := 25, preset := "medium", scale := 100, preserveQuality := false }
        theme := Theme.system
        autoSaveHistory := true } := by
  refine ⟨rfl, ?_, rfl, ?_, rfl⟩
  · intro hp
    by_cases hs : s = "" <;> simp [getCompressionHistory, hs, hp]
  · intro hp
    by_cases ht : t = "" <;> simp [getAppSettings, ht, hp]

/-- Witness for C10: a parse function that always fails (every stored text
is unparseable) yields the empty history and the default settings. -/
theorem storage_getters_default_spec_witness :
    getCompressionHistory (fun _ => none) (some "not json") = [] ∧
    getAppSettings (fun _ => none) (some "not json") = defaultAppSettings := by
  refine ⟨?_, ?_⟩
  · exact (storage_getters_default_spec (fun _ => none) (fun _ => none)
      "not json" "not json").2.1 rfl
  · exact (storage_getters_default_spec (fun _ => none) (fun _ => none)
      "not json" "not json").2.2.2.1 rfl

/-! ### C9: coalescing of concurrent encoder initialization -/

/-- Case analysis for a read of an updated program-counter map. -/
theorem update_eq_cases {ι : Type} [DecidableEq ι] (pcs : ι → CallerPc)
    (i : ι) (v w : CallerPc) (j : ι)
    (h : Function.update pcs i v j = w) :
    (j = i ∧ v = w) ∨ (j ≠ i ∧ pcs j = w) := by
  rcases eq_or_ne j i with rfl | hj
  · left; exact ⟨rfl, by rwa [Function.update_same] at h⟩
  · right; exact ⟨hj, by rwa [Function.update_noteq hj] at h⟩

/-- Structural invariant: loaders are unique, a loader implies the
`isLoading` flag, and a finished load (`isLoaded`) excludes any loader. -/
theorem initStep_inv {ι : Type} [DecidableEq ι] {allowed : Bool → Prop}
    {c : InitConfig ι}
    (h : Relation.ReflTransGen (InitStep ι allowed) (initConfig ι) c) :
    (∀ i j, c.pcs i = CallerPc.loading → c.pcs j = CallerPc.loading → i = j) ∧
    (∀ i, c.pcs i = CallerPc.loading → c.ps.isLoading = true) ∧
    (c.ps.isLoaded = true → ∀ i, c.pcs i ≠ CallerPc.loading) := by
  induction h with
  | refl =>
      refine ⟨fun i j hi _ => ?_, fun i hi => ?_, fun _ i hi => ?_⟩ <;>
        simp [initConfig] at hi
  | tail hsteps hstep ih =>
      obtain ⟨ihU, ihL, ihD⟩ := ih
      cases hstep with
      | enterLoaded i hidle hld =>
          dsimp only
          refine ⟨fun a b ha hb => ?_, fun a ha => ?_, fun hld2 a ha => ?_⟩
          · rcases update_eq_cases _ _ _ _ _ ha with ⟨_, hv⟩ | ⟨_, ha2⟩
            · simp at hv
            · rcases update_eq_cases _ _ _ _ _ hb with ⟨_, hv⟩ | ⟨_, hb2⟩
              · simp at hv
              · exact ihU a b ha2 hb2
          · rcases update_eq_cases _ _ _ _ _ ha with ⟨_, hv⟩ | ⟨_, ha2⟩
            · simp at hv
            · exact ihL a ha2
          · rcases update_eq_cases _ _ _ _ _ ha with ⟨_, hv⟩ | ⟨_, ha2⟩
            · simp at hv
            · exact ihD hld2 a ha2
      | enterWait i hidle hnl hlg =>
          dsimp only
          refine ⟨fun a b ha hb => ?_, fun a ha => ?_, fun hld2 a ha => ?_⟩
          · rcases update_eq_cases _ _ _ _ _ ha with ⟨_, hv⟩ | ⟨_, ha2⟩
            · simp at hv
            · rcases update_eq_cases _ _ _ _ _ hb with ⟨_, hv⟩ | ⟨_, hb2⟩
              · simp at hv
              · exact ihU a b ha2 hb2
          · rcases update_eq_cases _ _ _ _ _ ha with ⟨_, hv⟩ | ⟨_, ha2⟩
            · simp at hv
            · exact ihL a ha2
          · rcases update_eq_cases _ _ _ _ _ ha with ⟨_, hv⟩ | ⟨_, ha2⟩
            · simp at hv
            · exact ihD hld2 a ha2
      | enterLoad i hidle hnl hnlg =>
          dsimp only
          refine ⟨fun a b ha hb => ?_, fun a ha => ?_, fun hld2 a ha => ?_⟩
          · rcases update_eq_cases _ _ _ _ _ ha with ⟨hai, _⟩ | ⟨_, ha2⟩
            · rcases update_eq_cases _ _ _ _ _ hb with ⟨hbi, _⟩ | ⟨_, hb2⟩
              · rw [hai, hbi]
              · rw [hnlg] at ihL
                exact absurd (ihL b hb2) (by decide)
            · rw [hnlg] at ihL
              exact absurd (ihL a ha2) (by decide)
          · rfl
          · simp at hld2
      | poll i hw hnlg =>
          dsimp only
          refine ⟨fun a b ha hb => ?_, fun a ha => ?_, fun hld2 a ha => ?_⟩
          · rcases update_eq_cases _ _ _ _ _ ha with ⟨_, hv⟩ | ⟨_, ha2⟩
            · simp at hv
            · rcases update_eq_cases _ _ _ _ _ hb with ⟨_, hv⟩ | ⟨_, hb2⟩
              · simp at hv
              · exact ihU a b ha2 hb2
          · rcases update_eq_cases _ _ _ _ _ ha with ⟨_, hv⟩ | ⟨_, ha2⟩
            · simp at hv
            · exact ihL a ha2
          · rcases update_eq_cases _ _ _ _ _ ha with ⟨_, hv⟩ | ⟨_, ha2⟩
            · simp at hv
            · exact ihD hld2 a ha2
      | finish i rr hlpc har =>
          dsimp only
          refine ⟨fun a b ha hb => ?_, fun a ha => ?_, fun hld2 a ha => ?_⟩
          · rcases update_eq_cases _ _ _ _ _ ha with ⟨_, hv⟩ | ⟨hai, ha2⟩
            · simp at hv
            · exact absurd (ihU a i ha2 hlpc) hai
          · rcases update_eq_cases _ _ _ _ _ ha with ⟨_, hv⟩ | ⟨hai, ha2⟩
            · simp at hv
            · exact absurd (ihU a i ha2 hlpc) hai
          · rcases update_eq_cases _ _ _ _ _ ha with ⟨_, hv⟩ | ⟨hai, ha2⟩
            · simp at hv
            · exact absurd (ihU a i ha2 hlpc) hai

/-- Uniform-outcome invariant: when every permitted load outcome is `r`,
every flag and every returned value agrees with `r`. -/
theorem initStep_invR {ι : Type} [DecidableEq ι] {r : Bool} {c : InitConfig ι}
    (h : Relation.ReflTransGen (InitStep ι (fun b => b = r)) (initConfig ι) c) :
    (c.ps.isLoaded = true → r = true) ∧
    (∀ i, c.pcs i = CallerPc.waiting → c.ps.isLoading = false →
      c.ps.isLoaded = r) ∧
    (∀ i b, c.pcs i = CallerPc.done b → b = r) := by
  induction h with
  | refl =>
      refine ⟨fun h0 => ?_, fun i hi _ => ?_, fun i b hi => ?_⟩
      · simp [initConfig] at h0
      · simp [initConfig] at hi
      · simp [initConfig] at hi
  | tail hsteps hstep ih =>
      obtain ⟨ihA, ihB, ihC⟩ := ih
      cases hstep with
      | enterLoaded i hidle hld =>
          dsimp only
          refine ⟨ihA, fun a ha hlg => ?_, fun a b ha => ?_⟩
          · rcases update_eq_cases _ _ _ _ _ ha with ⟨_, hv⟩ | ⟨_, ha2⟩
            · simp at hv
            · exact ihB a ha2 hlg
          · rcases update_eq_cases _ _ _ _ _ ha with ⟨_, hv⟩ | ⟨_, ha2⟩
            · injection hv with hb
              rw [← hb]
              exact (ihA hld).symm
            · exact ihC a b ha2
      | enterWait i hidle hnl hlg =>
          dsimp only
          refine ⟨ihA, fun a ha hlg2 => ?_, fun a b ha => ?_⟩
          · rw [hlg] at hlg2
            exact absurd hlg2 (by decide)
          · rcases update_eq_cases _ _ _ _ _ ha with ⟨_, hv⟩ | ⟨_, ha2⟩
            · simp at hv
            · exact ihC a b ha2
      | enterLoad i hidle hnl hnlg =>
          dsimp only
          refine ⟨fun h0 => ?_, fun a ha hlg2 => ?_, fun a b ha => ?_⟩
          · exact absurd h0 (by decide)
          · exact absurd hlg2 (by decide)
          · rcases update_eq_cases _ _ _ _ _ ha with ⟨_, hv⟩ | ⟨_, ha2⟩
            · simp at hv
            · exact ihC a b ha2
      | poll i hw hnlg =>
          dsimp only
          refine ⟨ihA, fun a ha hlg2 => ?_, fun a b ha => ?_⟩
          · rcases update_eq_cases _ _ _ _ _ ha with ⟨_, hv⟩ | ⟨_, ha2⟩
            · simp at hv
            · exact ihB a ha2 hlg2
          · rcases update_eq_cases _ _ _ _ _ ha with ⟨_, hv⟩ | ⟨_, ha2⟩
            · injection hv with hb
              rw [← hb]
              exact ihB i hw hnlg
            · exact ihC a b ha2
      | finish i rr hlpc har =>
          have hrr : rr = r := har
          subst hrr
          dsimp only
          refine ⟨fun h0 => h0, fun a ha hlg2 => rfl, fun a b ha => ?_⟩
          · rcases update_eq_cases _ _ _ _ _ ha with ⟨_, hv⟩ | ⟨_, ha2⟩
            · injection hv with hb
              exact hb.symm
            · exact ihC a b ha2

/-- C9 counterexample. The claim says every caller awaiting an in-flight
load observes the same outcome as that load's other callers.  A
mixed-outcome run refutes it: caller 0 starts a load and caller 1 awaits
that same load (`mixedC2`); the load fails, so caller 0 returns `false`;
before caller 1's next 100 ms poll, a fresh caller 2 sees both flags
cleared and starts a second load, which succeeds; caller 1 then polls and
returns `true` (`mixedC6`).  Two callers of the same first load thus
observe different outcomes. -/
theorem initialize_waiters_can_observe_different_outcomes :
    InitReachable (Fin 3) (fun _ => True) mixedC2 ∧
    mixedC2.pcs 0 = CallerPc.loading ∧
    mixedC2.pcs 1 = CallerPc.waiting ∧
    Relation.ReflTransGen (InitStep (Fin 3) (fun _ => True)) mixedC2 mixedC6 ∧
    mixedC6.pcs 0 = CallerPc.done false ∧
    mixedC6.pcs 1 = CallerPc.done true ∧
    ¬ (∀ (i j : Fin 3) (b b' : Bool),
        mixedC6.pcs i = CallerPc.done b → mixedC6.pcs j = CallerPc.done b' →
        b = b') := by
  have s1 : InitStep (Fin 3) (fun _ => True) (initConfig (Fin 3)) mixedC1 :=
    InitStep.enterLoad (initConfig (Fin 3)) 0 rfl rfl rfl
  have s2 : InitStep (Fin 3) (fun _ => True) mixedC1 mixedC2 :=
    InitStep.enterWait mixedC1 1 (by decide) rfl rfl
  have s3 : InitStep (Fin 3) (fun _ => True) mixedC2 mixedC3 :=
    InitStep.finish mixedC2 0 false (by decide) trivial
  have s4 : InitStep (Fin 3) (fun _ => True) mixedC3 mixedC4 :=
    InitStep.enterLoad mixedC3 2 (by decide) rfl rfl
  have s5 : InitStep (Fin 3) (fun _ => True) mixedC4 mixedC5 :=
    InitStep.finish mixedC4 2 true (by decide) trivial
  have s6 : InitStep (Fin 3) (fun _ => True) mixedC5 mixedC6 :=
    InitStep.poll mixedC5 1 (by decide) rfl
  refine ⟨Relation.ReflTransGen.tail (Relation.ReflTransGen.single s1) s2,
    by decide, by decide,
    Relation.ReflTransGen.tail (Relation.ReflTransGen.tail
      (Relation.ReflTransGen.tail (Relation.ReflTransGen.single s3) s4) s5) s6,
    by decide, by decide, ?_⟩
  intro hall
  exact absurd (hall 0 1 false true (by decide) (by decide)) (by decide)

/-- C9 as amended. `RealVideoProcessor.initialize` coalesces concurrent
callers: in every reachable configuration at most one caller is performing
the load, and once a load has succeeded (`isLoaded`) no caller is loading,
no step changes the processor flags, and a newly arriving caller goes
straight to `done true` without loading again.  In every run whose loads
all produce outcome `r` - in particular any run around a single load -
every caller that has returned observed exactly `r`; after a *failed*
load, however, a still-polling waiter may observe a later load's different
outcome. -/
theorem encoder_init_coalescing_spec :
    (∀ (ι : Type) [DecidableEq ι] (allowed : Bool → Prop) (c : InitConfig ι),
      InitReachable ι allowed c →
        (∀ i j, c.pcs i = CallerPc.loading → c.pcs j = CallerPc.loading → i = j) ∧
        (c.ps.isLoaded = true →
          (∀ i, c.pcs i ≠ CallerPc.loading) ∧
          (∀ c', InitStep ι allowed c c' →
            c'.ps = c.ps ∧
            (∀ i, c.pcs i = CallerPc.idle →
              c'.pcs i = CallerPc.idle ∨ c'.pcs i = CallerPc.done true)))) ∧
    (∀ (ι : Type) [DecidableEq ι] (r : Bool) (c : InitConfig ι),
      InitReachable ι (fun b => b = r) c →
        ∀ i b, c.pcs i = CallerPc.done b → b = r) := by
  constructor
  · intro ι _ allowed c hreach
    obtain ⟨hU, hL, hD⟩ := initStep_inv hreach
    refine ⟨hU, fun hld => ⟨hD hld, ?_⟩⟩
    intro c' hstep
    cases hstep with
    | enterLoaded i hidle hld2 =>
        dsimp only
        refine ⟨rfl, fun a ha => ?_⟩
        rcases eq_or_ne a i with rfl | hai
        · right; rw [Function.update_same]
        · left; rw [Function.update_noteq hai]; exact ha
    | enterWait i hidle hnl hlg =>
        rw [hld] at hnl
        exact absurd hnl (by decide)
    | enterLoad i hidle hnl hnlg =>
        rw [hld] at hnl
        exact absurd hnl (by decide)
    | poll i hw hnlg =>
        dsimp only
        refine ⟨rfl, fun a ha => ?_⟩
        rcases eq_or_ne a i with rfl | hai
        · rw [hw] at ha
          exact absurd ha (by decide)
        · left; rw [Function.update_noteq hai]; exact ha
    | finish i rr hlpc har =>
        exact absurd hlpc (hD hld i)
  · intro ι _ r c hreach
    exact (initStep_invR hreach).2.2

/-- The two-step demo run is reachable: one caller enters the load section
and the load finishes successfully. -/
theorem demoInit_reachable :
    InitReachable (Fin 1) (fun b => b = true) demoInitC2 := by
  have s1 : InitStep (Fin 1) (fun b => b = true) (initConfig (Fin 1)) demoInitC1 :=
    InitStep.enterLoad (initConfig (Fin 1)) 0 rfl rfl rfl
  have h0 : demoInitC1.pcs 0 = CallerPc.loading := by
    simp [demoInitC1, Function.update_same]
  have s2 : InitStep (Fin 1) (fun b => b = true) demoInitC1 demoInitC2 :=
    InitStep.finish demoInitC1 0 true h0 rfl
  exact Relation.ReflTransGen.tail (Relation.ReflTransGen.single s1) s2

/-- Witness for C9: after the successful demo run, the lone caller is not
loading (the load section is empty) and did not return `false`: it observed
the single load's outcome `true`. -/
theorem encoder_init_coalescing_spec_witness :
    demoInitC2.pcs 0 ≠ CallerPc.loading ∧
    demoInitC2.pcs 0 ≠ CallerPc.done false := by
  constructor
  · exact ((encoder_init_coalescing_spec.1 (Fin 1) (fun b => b = true) demoInitC2
      demoInit_reachable).2 rfl).1 0
  · intro hc
    exact absurd (encoder_init_coalescing_spec.2 (Fin 1) true demoInitC2
      demoInit_reachable 0 false hc) (by decide)
